import Mathlib

/-!
Verification of the Ticket record module of PyNUSD (WADGEN/Ticket.py)
against its natural-language specification: the fixed-layout binary codec,
common-key resolution, titlekey cipher integration and the fakesign
brute-force search.

Python byte strings are modelled as `List Nat` (byte values) and Python
text strings as `List Nat` of ASCII code points, except for the short
fixed key-type names, which are Lean `String`s.  The external Signature
and Certificate codecs, the static key table and the crypto primitives
live outside the provided source tree; they are modelled from the spec as
opaque fixed-size byte blocks, named key tokens and abstract functions,
as noted on each definition.
-/

deriving instance DecidableEq for Except

/-- Big-endian digit expansion: `toDigitsBE b w v` is the `w`-digit
base-`b` representation of `v`, most significant digit first (the value is
reduced modulo `b ^ w`).  With `b = 256` this is the byte encoding
performed by `struct.pack` for the fixed-width big-endian integer
fields. -/
def toDigitsBE (b : Nat) : Nat → Nat → List Nat
  | 0, _ => []
  | w + 1, v => toDigitsBE b w (v / b) ++ [v % b]

/-- Big-endian digit accumulation, the decoding direction of
`toDigitsBE`; with `b = 256` this is the integer decoding performed by
`struct.unpack` on big-endian fields. -/
def fromDigitsBE (b : Nat) (l : List Nat) : Nat :=
  l.foldl (fun a d => a * b + d) 0

theorem length_toDigitsBE (b : Nat) : ∀ w v, (toDigitsBE b w v).length = w
  | 0, _ => rfl
  | w + 1, v => by simp [toDigitsBE, length_toDigitsBE b w]

theorem fromDigitsBE_append (b : Nat) (l : List Nat) (d : Nat) :
    fromDigitsBE b (l ++ [d]) = fromDigitsBE b l * b + d := by
  simp [fromDigitsBE, List.foldl_append]

theorem fromDigitsBE_toDigitsBE (b : Nat) :
    ∀ w v, fromDigitsBE b (toDigitsBE b w v) = v % b ^ w := by
  intro w
  induction w with
  | zero => intro v; simp [toDigitsBE, fromDigitsBE, Nat.mod_one]
  | succ w ih =>
    intro v
    rw [toDigitsBE, fromDigitsBE_append, ih]
    rcases Nat.eq_zero_or_pos b with hb | hb
    · subst hb; simp
    · rw [pow_succ']
      rw [Nat.mod_mul]
      have h1 : v % b < b := Nat.mod_lt v hb
      rw [Nat.mul_comm (v / b % b ^ w) b]
      omega

theorem fromDigitsBE_toDigitsBE_of_lt (b w v : Nat) (h : v < b ^ w) :
    fromDigitsBE b (toDigitsBE b w v) = v := by
  rw [fromDigitsBE_toDigitsBE, Nat.mod_eq_of_lt h]

theorem toDigitsBE_fromDigitsBE (b : Nat) (l : List Nat)
    (h : ∀ d ∈ l, d < b) :
    toDigitsBE b l.length (fromDigitsBE b l) = l := by
  induction l using List.reverseRecOn with
  | nil => simp [toDigitsBE, fromDigitsBE]
  | append_singleton l d ih =>
    have hd : d < b := h d (by simp)
    have hb : 0 < b := Nat.pos_of_ne_zero (by omega)
    have hl : ∀ x ∈ l, x < b := fun x hx => h x (by simp [hx])
    rw [fromDigitsBE_append]
    have hlen : (l ++ [d]).length = l.length + 1 := by simp
    rw [hlen, toDigitsBE]
    have hdiv : (fromDigitsBE b l * b + d) / b = fromDigitsBE b l := by
      rw [Nat.mul_comm (fromDigitsBE b l) b, Nat.mul_add_div hb]
      simp [Nat.div_eq_of_lt hd]
    have hmod : (fromDigitsBE b l * b + d) % b = d := by
      rw [Nat.mul_add_mod', Nat.mod_eq_of_lt hd]
    rw [hdiv, hmod, ih hl]

theorem fromDigitsBE_lt (b : Nat) (l : List Nat)
    (h : ∀ d ∈ l, d < b) : fromDigitsBE b l < b ^ l.length := by
  induction l using List.reverseRecOn with
  | nil => simp [fromDigitsBE]
  | append_singleton l d ih =>
    have hd : d < b := h d (by simp)
    have hl : ∀ x ∈ l, x < b := fun x hx => h x (by simp [hx])
    have hV : fromDigitsBE b l < b ^ l.length := ih hl
    rw [fromDigitsBE_append]
    have hlen : (l ++ [d]).length = l.length + 1 := by simp
    rw [hlen, pow_succ]
    have h1 : fromDigitsBE b l * b + d < (fromDigitsBE b l + 1) * b := by
      rw [Nat.add_mul, Nat.one_mul]
      omega
    have h2 : (fromDigitsBE b l + 1) * b ≤ b ^ l.length * b :=
      Nat.mul_le_mul_right b hV
    omega

/-! ### ASCII string helpers

Python text strings are modelled as lists of ASCII code points. -/

/-- Code points of a Lean string literal, used to transcribe the Python
string literals of the source. -/
def asciiOf (s : String) : List Nat := s.toList.map Char.toNat

/-- Hexadecimal digit test on an ASCII code point (`0-9`, `a-f`, `A-F`),
as accepted by `int(_, 16)` and `binascii.a2b_hex`. -/
def isHexDigitCode (c : Nat) : Bool :=
  (48 ≤ c && c ≤ 57) || (97 ≤ c && c ≤ 102) || (65 ≤ c && c ≤ 70)

/-- Numeric value of a hexadecimal ASCII digit. -/
def hexVal (c : Nat) : Nat :=
  if c ≤ 57 then c - 48 else if c ≤ 70 then c - 55 else c - 87

/-- Uppercase hexadecimal digit for a value below 16, as produced by the
`"{:08X}"` format used in `get_titleid`. -/
def hexUpperDigit (d : Nat) : Nat :=
  if d < 10 then 48 + d else 55 + d

/-- Python `str.lower` on an ASCII code point. -/
def pyLowerCode (c : Nat) : Nat :=
  if 65 ≤ c && c ≤ 90 then c + 32 else c

/-- Python whitespace (ASCII part), stripped by `int(_, 16)`. -/
def isWsCode (c : Nat) : Bool :=
  c = 32 || c = 9 || c = 10 || c = 11 || c = 12 || c = 13

/-- Strip leading and trailing whitespace, as `int(_, 16)` does before
parsing. -/
def stripWs (s : List Nat) : List Nat :=
  ((s.dropWhile isWsCode).reverse.dropWhile isWsCode).reverse

/-- Fuel-driven minimal uppercase hexadecimal expansion (most significant
digit first, no leading zeros, `0` renders as `"0"`). -/
def toHexUpperGo : Nat → Nat → List Nat
  | 0, _ => []
  | fuel + 1, n =>
    if n < 16 then [hexUpperDigit n]
    else toHexUpperGo fuel (n / 16) ++ [hexUpperDigit (n % 16)]

/-- Python `"{:X}".format n` for a natural number: minimal uppercase
hexadecimal digits. -/
def toHexUpper (n : Nat) : List Nat := toHexUpperGo (n + 1) n

/-- Left-pad with ASCII `'0'` up to `w` characters. -/
def padZeros (w : Nat) (l : List Nat) : List Nat :=
  List.replicate (w - l.length) 48 ++ l

/-- Python `"{:08X}".format n` for an arbitrary integer: for negative
values the sign occupies one of the 8 characters. -/
def pyFormat08X (n : Int) : List Nat :=
  if n < 0 then 45 :: padZeros 7 (toHexUpper n.natAbs)
  else padZeros 8 (toHexUpper n.toNat)

/-- Python `str.zfill w`: zero-fill on the left to width `w`, keeping a
leading sign character in front of the inserted zeros. -/
def pyZfill (w : Nat) (s : List Nat) : List Nat :=
  if w ≤ s.length then s
  else
    match s with
    | c :: rest =>
      if c = 43 || c = 45 then c :: (List.replicate (w - s.length) 48 ++ rest)
      else List.replicate (w - s.length) 48 ++ s
    | [] => List.replicate w 48

/-! ### Python `int(_, 16)`

`set_titleid` calls `int(tid, 16)`, whose acceptance grammar (for ASCII
input) is: optional surrounding whitespace, an optional sign, an optional
`0x`/`0X` marker, then hexadecimal digits with single underscores allowed
between digits (and one directly after the `0x` marker). -/

mutual

/-- Digit-run validation, positioned where a digit is required. -/
def digitsCore : List Nat → Bool
  | [] => false
  | c :: rest => isHexDigitCode c && digitsAfter rest

/-- Digit-run validation, positioned after a digit: either the run ends,
an underscore followed by a digit run comes next, or another digit. -/
def digitsAfter : List Nat → Bool
  | [] => true
  | c :: rest =>
    if c = 95 then digitsCore rest
    else isHexDigitCode c && digitsAfter rest

end

/-- Accumulated value of a hexadecimal digit run. -/
def hexFold (l : List Nat) : Nat := fromDigitsBE 16 (l.map hexVal)

/-- Value of a digit body with underscores removed, `none` when the run is
not well-formed. -/
def hexBodyVal (s : List Nat) : Option Nat :=
  if digitsCore s then some (hexFold (s.filter (fun c => c ≠ 95))) else none

/-- `int(_, 16)` after sign removal: an optional `0x`/`0X` marker (which
additionally licenses one leading underscore), then the digit body. -/
def pyInt16Core (s : List Nat) : Option Nat :=
  match s with
  | c0 :: c1 :: rest =>
    if c0 = 48 && (c1 = 120 || c1 = 88) then
      match rest with
      | 95 :: rest2 => hexBodyVal rest2
      | _ => hexBodyVal rest
    else hexBodyVal s
  | _ => hexBodyVal s

/-- Python `int(s, 16)` on an ASCII string: `none` models the raised
`ValueError`. -/
def pyInt16 (s : List Nat) : Option Int :=
  match stripWs s with
  | [] => none
  | c :: rest =>
    if c = 43 then (pyInt16Core rest).map (fun v => (v : Int))
    else if c = 45 then (pyInt16Core rest).map (fun v => -(v : Int))
    else (pyInt16Core (c :: rest)).map (fun v => (v : Int))

/-- `binascii.a2b_hex` on an ASCII string: pairs of hexadecimal digits
decoded to bytes, `none` when a character is not a hexadecimal digit or
the length is odd. -/
def hexDecode : List Nat → Option (List Nat)
  | [] => some []
  | [_] => none
  | c1 :: c2 :: rest =>
    if isHexDigitCode c1 && isHexDigitCode c2 then
      (hexDecode rest).map (fun l => (hexVal c1 * 16 + hexVal c2) :: l)
    else none

/-! ### The key table and the Ticket record -/

/-- Modelled from the spec: the process-wide static key table entries and
the reserved DSi special-case key are opaque symmetric keys provided
outside the source tree (`DECRYPTION_KEYS`, `DSI_KEY`); they are
represented as named tokens since every claim concerns only which entry is
selected. -/
inductive CommonKey where
  | normal
  | korean
  | wiiUWiiMode
  | dsi
deriving DecidableEq

/-- Modelled from the spec: the key table indexed by the common-key index,
with three entries (indices `0..2`). -/
def DECRYPTION_KEYS : List CommonKey :=
  [CommonKey.normal, CommonKey.korean, CommonKey.wiiUWiiMode]

/-- Modelled from the spec: the reserved special-case (DSi) key. -/
def DSI_KEY : CommonKey := CommonKey.dsi

/-- Modelled from the spec: the external Signature codec is an opaque
self-describing block consumed and produced verbatim, of fixed size for a
given signature type; 320 bytes is the size of the RSA-2048 signature
block used by the default signature type. -/
def SIGNATURE_SIZE : Nat := 320

/-- Modelled from the spec: the external Certificate codec is an opaque
self-describing block consumed and produced verbatim; 768 bytes is the
size of an RSA-2048 certificate block. -/
def CERTIFICATE_SIZE : Nat := 768

/-- The Ticket record, fields in the order of `WADGEN/Ticket.py`.
Raw-byte fields are byte lists; big-endian integer fields are numbers;
`titleid` is an `Int` because `set_titleid` stores whatever
`int(tid, 16)` returns, which can be negative. -/
structure Ticket where
  signature : List Nat
  issuer : List Nat
  ecdhdata : List Nat
  unused1 : List Nat
  titlekey : List Nat
  unknown1 : List Nat
  ticketid : List Nat
  consoleid : Nat
  titleid : Int
  unknown2 : List Nat
  titleversion : Nat
  permitted_titles_mask : Nat
  permit_mask : Nat
  export_allowed : Bool
  ckeyindex : Nat
  unknown3 : List Nat
  content_access_permissions : List Nat
  padding : Nat
  limits : List Nat
  certificates : List (List Nat)
deriving DecidableEq

/-- The all-zero defaults of `Ticket.__init__`. -/
def Ticket.init : Ticket where
  signature := List.replicate SIGNATURE_SIZE 0
  issuer := List.replicate 64 0
  ecdhdata := List.replicate 60 0
  unused1 := List.replicate 3 0
  titlekey := List.replicate 16 0
  unknown1 := List.replicate 1 0
  ticketid := List.replicate 8 0
  consoleid := 0
  titleid := 0
  unknown2 := List.replicate 2 0
  titleversion := 0
  permitted_titles_mask := 0
  permit_mask := 0
  export_allowed := false
  ckeyindex := 0
  unknown3 := List.replicate 48 0
  content_access_permissions := List.replicate 64 0
  padding := 0
  limits := List.replicate 64 0
  certificates := [List.replicate CERTIFICATE_SIZE 0, List.replicate CERTIFICATE_SIZE 0]

/-! ### Binary codec -/

/-- A strict read of `n` bytes: `struct.unpack` (and the modelled
Signature/Certificate sub-parsers) fail when fewer than `n` bytes remain.
Raw-byte fields instead use plain `take`/`drop`, because Python
`f.read(n)` silently returns fewer bytes at end of stream. -/
def readExact (n : Nat) (l : List Nat) : Option (List Nat × List Nat) :=
  if n ≤ l.length then some (l.take n, l.drop n) else none

/-- `Ticket.pack`: serializes the fields in the fixed order; the signature
block is prepended only when `include_signature`, the two certificate
blocks are appended only when `include_certificates`. -/
def Ticket.pack (t : Ticket) (include_signature : Bool)
    (include_certificates : Bool) : List Nat :=
  (if include_signature then t.signature else []) ++
  (t.issuer ++
  (t.ecdhdata ++
  (t.unused1 ++
  (t.titlekey ++
  (t.unknown1 ++
  (t.ticketid ++
  (toDigitsBE 256 4 t.consoleid ++
  (toDigitsBE 256 8 t.titleid.toNat ++
  (t.unknown2 ++
  (toDigitsBE 256 2 t.titleversion ++
  (toDigitsBE 256 4 t.permitted_titles_mask ++
  (toDigitsBE 256 4 t.permit_mask ++
  ((if t.export_allowed then [1] else [0]) ++
  (toDigitsBE 256 1 t.ckeyindex ++
  (t.unknown3 ++
  (t.content_access_permissions ++
  (toDigitsBE 256 2 t.padding ++
  (t.limits ++
  (if include_certificates then t.certificates.foldl (fun a c => a ++ c) []
   else [])))))))))))))))))))

/-- `Ticket.parse`: reads the fields strictly in order.  The error string
names the field whose strict read failed; raw-byte fields never fail
(Python `f.read` tolerates short streams), multi-byte integer fields and
the modelled Signature/Certificate sub-parsers do. -/
def Ticket.parse (l : List Nat) : Except String Ticket :=
  match readExact SIGNATURE_SIZE l with
  | none => Except.error "signature"
  | some (sig, r0) =>
  let issuer := r0.take 64
  let r1 := r0.drop 64
  let ecdhdata := r1.take 60
  let r2 := r1.drop 60
  let unused1 := r2.take 3
  let r3 := r2.drop 3
  let titlekey := r3.take 16
  let r4 := r3.drop 16
  let unknown1 := r4.take 1
  let r5 := r4.drop 1
  let ticketid := r5.take 8
  let r6 := r5.drop 8
  match readExact 4 r6 with
  | none => Except.error "consoleid"
  | some (cid, r7) =>
  match readExact 8 r7 with
  | none => Except.error "titleid"
  | some (tid, r8) =>
  let unknown2 := r8.take 2
  let r9 := r8.drop 2
  match readExact 2 r9 with
  | none => Except.error "titleversion"
  | some (tver, r10) =>
  match readExact 4 r10 with
  | none => Except.error "permitted_titles_mask"
  | some (ptm, r11) =>
  match readExact 4 r11 with
  | none => Except.error "permit_mask"
  | some (pm, r12) =>
  match readExact 1 r12 with
  | none => Except.error "export_allowed"
  | some (ea, r13) =>
  match readExact 1 r13 with
  | none => Except.error "ckeyindex"
  | some (cki, r14) =>
  let unknown3 := r14.take 48
  let r15 := r14.drop 48
  let cap := r15.take 64
  let r16 := r15.drop 64
  match readExact 2 r16 with
  | none => Except.error "padding"
  | some (pad, r17) =>
  let limits := r17.take 64
  let r18 := r17.drop 64
  match readExact CERTIFICATE_SIZE r18 with
  | none => Except.error "certificate"
  | some (c1, r19) =>
  match readExact CERTIFICATE_SIZE r19 with
  | none => Except.error "certificate"
  | some (c2, _) =>
  Except.ok {
    signature := sig
    issuer := issuer
    ecdhdata := ecdhdata
    unused1 := unused1
    titlekey := titlekey
    unknown1 := unknown1
    ticketid := ticketid
    consoleid := fromDigitsBE 256 cid
    titleid := (fromDigitsBE 256 tid : Nat)
    unknown2 := unknown2
    titleversion := fromDigitsBE 256 tver
    permitted_titles_mask := fromDigitsBE 256 ptm
    permit_mask := fromDigitsBE 256 pm
    export_allowed := fromDigitsBE 256 ea != 0
    ckeyindex := fromDigitsBE 256 cki
    unknown3 := unknown3
    content_access_permissions := cap
    padding := fromDigitsBE 256 pad
    limits := limits
    certificates := [c1, c2] }

/-! ### Accessors, key resolution, cipher integration -/

/-- `get_titleid`: the `"{:08X}"` format, zero-filled to 16 characters and
lowercased. -/
def Ticket.get_titleid (t : Ticket) : List Nat :=
  (pyZfill 16 (pyFormat08X t.titleid)).map pyLowerCode

/-- `get_iv`: the 8-byte big-endian `titleid` followed by 8 zero bytes. -/
def Ticket.get_iv (t : Ticket) : List Nat :=
  toDigitsBE 256 8 t.titleid.toNat ++ List.replicate 8 0

/-- ASCII codes of the title-id text `"00030"` checked by
`get_decryption_key` and `get_common_key_type`. -/
def pre00030 : List Nat := asciiOf "00030"

/-- `get_decryption_key`: the DSi key for a `"00030"`-prefixed title id,
otherwise the key table entry at `ckeyindex`, falling back to entry 0 on
an out-of-range index.  The second component records whether the
out-of-range warning was printed. -/
def Ticket.get_decryption_key (t : Ticket) : CommonKey × Bool :=
  if pre00030.isPrefixOf t.get_titleid then (DSI_KEY, false)
  else
    match DECRYPTION_KEYS.get? t.ckeyindex with
    | some k => (k, false)
    | none => (DECRYPTION_KEYS.getD 0 CommonKey.normal, true)

/-- The human-readable key-type name table of `get_common_key_type`. -/
def key_types : List String := ["Normal", "Korean", "Wii U Wii Mode"]

/-- `get_common_key_type`: `"DSi"` for a `"00030"`-prefixed title id,
otherwise the name table entry at `ckeyindex`, `"Unknown"` when out of
range. -/
def Ticket.get_common_key_type (t : Ticket) : String :=
  if pre00030.isPrefixOf t.get_titleid then "DSi"
  else key_types.getD t.ckeyindex "Unknown"

/-- `get_decrypted_titlekey`.  Modelled from the spec:
`utils.Crypto.decrypt_titlekey` is the external AES-128-CBC decryption
primitive, passed in as the abstract function `dec` taking the resolved
common key, the IV and the stored encrypted title key. -/
def Ticket.get_decrypted_titlekey
    (dec : CommonKey → List Nat → List Nat → List Nat) (t : Ticket) :
    List Nat :=
  dec t.get_decryption_key.1 t.get_iv t.titlekey

/-! ### Setters -/

/-- `set_titleid`: requires exactly 16 characters, then stores whatever
`int(tid, 16)` yields; either check failing raises (modelled as
`Except.error`). -/
def Ticket.set_titleid (t : Ticket) (tid : List Nat) : Except String Ticket :=
  if tid.length ≠ 16 then Except.error "Title ID must be 16 characters long."
  else
    match pyInt16 tid with
    | none => Except.error "invalid literal for int with base 16"
    | some v => Except.ok { t with titleid := v }

/-- `set_common_key_index`: accepts exactly the integers `0..2`. -/
def Ticket.set_common_key_index (t : Ticket) (i : Int) : Except String Ticket :=
  if 0 ≤ i ∧ i ≤ 2 then Except.ok { t with ckeyindex := i.toNat }
  else Except.error "Invalid Common-Key index!"

/-- `set_titlekey`: requires exactly 32 characters; stores the hex-decoded
bytes directly when `encrypted`, otherwise first encrypts the hex-decoded
plaintext with the ticket's current resolved key and IV.  Modelled from
the spec: `utils.Crypto.encrypt_titlekey` is the external AES-128-CBC
encryption primitive, passed in as the abstract function `enc`; the
ciphertext bytes are what ends up stored in `titlekey`. -/
def Ticket.set_titlekey
    (enc : CommonKey → List Nat → List Nat → List Nat)
    (t : Ticket) (key : List Nat) (encrypted : Bool) : Except String Ticket :=
  if key.length ≠ 32 then Except.error "Key must be 32 characters long."
  else
    match hexDecode key with
    | none => Except.error "Non-hexadecimal digit found"
    | some kb =>
      if encrypted then Except.ok { t with titlekey := kb }
      else Except.ok { t with titlekey := enc t.get_decryption_key.1 t.get_iv kb }

/-! ### Fakesign search -/

/-- `Signature.zerofill` on the modelled opaque signature block. -/
def Ticket.zerofillSig (t : Ticket) : Ticket :=
  { t with signature := List.replicate SIGNATURE_SIZE 0 }

/-- The hash test of one fakesign candidate.  Modelled from the spec:
`utils.Crypto.create_sha1hash_hex` is the external SHA-1 primitive; `h`
yields the first byte of the digest of its input, so the source's
`sha1hash.startswith("00")` is `h bytes = 0`. -/
def fakesignCond (h : List Nat → Nat) (t : Ticket) (i : Nat) : Bool :=
  h (Ticket.pack { t with padding := i } false false) = 0

/-- The ascending candidate scan of `fakesign`, from candidate `i` with
`fuel` candidates left to try. -/
def findPadGo (h : List Nat → Nat) (t : Ticket) : Nat → Nat → Option Nat
  | _, 0 => none
  | i, fuel + 1 => if fakesignCond h t i then some i else findPadGo h t (i + 1) fuel

/-- The full scan `for i in range(65535)` of `fakesign`: candidates
`0, 1, …, 65534`. -/
def findPad (h : List Nat → Nat) (t : Ticket) : Option Nat := findPadGo h t 0 65535

/-- `fakesign`: zero the signature, scan padding candidates in ascending
order; on success the found padding is kept, on exhaustion the original
padding is restored and an exception is raised.  The source mutates the
ticket in place; modelled as returning the final ticket state plus a
success flag (`false` = the `Exception("Fakesigning failed.")` path). -/
def Ticket.fakesign (h : List Nat → Nat) (t : Ticket) : Ticket × Bool :=
  let t1 := t.zerofillSig
  match findPad h t1 with
  | some i => ({ t1 with padding := i }, true)
  | none => ({ t1 with padding := t.padding }, false)

/-! ### Spec-side definitions used for comparison -/

/-- Validity of a Ticket: every raw-byte field has its layout width,
every integer field is within its field width, and there are exactly two
certificate blocks.  Any ticket produced by a successful `parse` of a
well-formed stream satisfies this. -/
def Ticket.Valid (t : Ticket) : Prop :=
  t.signature.length = SIGNATURE_SIZE ∧
  t.issuer.length = 64 ∧
  t.ecdhdata.length = 60 ∧
  t.unused1.length = 3 ∧
  t.titlekey.length = 16 ∧
  t.unknown1.length = 1 ∧
  t.ticketid.length = 8 ∧
  t.consoleid < 2 ^ 32 ∧
  0 ≤ t.titleid ∧ t.titleid < 2 ^ 64 ∧
  t.unknown2.length = 2 ∧
  t.titleversion < 2 ^ 16 ∧
  t.permitted_titles_mask < 2 ^ 32 ∧
  t.permit_mask < 2 ^ 32 ∧
  t.ckeyindex < 2 ^ 8 ∧
  t.unknown3.length = 48 ∧
  t.content_access_permissions.length = 64 ∧
  t.padding < 2 ^ 16 ∧
  t.limits.length = 64 ∧
  t.certificates.length = 2 ∧
  t.certificates.all (fun c => c.length = CERTIFICATE_SIZE)

instance Ticket.Valid.decidable (t : Ticket) : Decidable t.Valid := by
  unfold Ticket.Valid; infer_instance

/-- Total length of a well-formed packed ticket with signature and both
certificates. -/
def MIN_TICKET_LEN : Nat := SIGNATURE_SIZE + 356 + 2 * CERTIFICATE_SIZE

/-- Written from the spec's field table: the fixed layout, in order, with
field widths. -/
def ticketLayout : List (String × Nat) :=
  [("signature", SIGNATURE_SIZE), ("issuer", 64), ("ecdhdata", 60),
   ("unused1", 3), ("titlekey", 16), ("unknown1", 1), ("ticketid", 8),
   ("consoleid", 4), ("titleid", 8), ("unknown2", 2), ("titleversion", 2),
   ("permitted_titles_mask", 4), ("permit_mask", 4), ("export_allowed", 1),
   ("ckeyindex", 1), ("unknown3", 48), ("content_access_permissions", 64),
   ("padding", 2), ("limits", 64), ("certificate1", CERTIFICATE_SIZE),
   ("certificate2", CERTIFICATE_SIZE)]

/-- Written from the spec's words: the first field boundary at which a
stream of `len` bytes is too short for the fixed layout. -/
def firstShortField : List (String × Nat) → Nat → Option String
  | [], _ => none
  | (f, w) :: rest, len => if len < w then some f else firstShortField rest (len - w)

/-- Written from the spec's words: a 16-character hexadecimal string
(case-insensitive). -/
def isHexString16 (s : List Nat) : Bool :=
  s.length == 16 && s.all isHexDigitCode

/-! ### Codec round-trip -/

theorem readExact_append {n : Nat} (a r : List Nat) (h : a.length = n) :
    readExact n (a ++ r) = some (a, r) := by
  simp [readExact, List.take_left' h, List.drop_left' h, ← h]

theorem readExact_self {n : Nat} (l : List Nat) (h : l.length = n) :
    readExact n l = some (l, []) := by
  simp [readExact, ← h]

theorem take_append_of_length {n : Nat} (a r : List Nat) (h : a.length = n) :
    (a ++ r).take n = a := List.take_left' h

theorem drop_append_of_length {n : Nat} (a r : List Nat) (h : a.length = n) :
    (a ++ r).drop n = r := List.drop_left' h

theorem boolByte_length (b : Bool) : (if b then [1] else [0] : List Nat).length = 1 := by
  cases b <;> rfl

theorem boolByte_decode (b : Bool) :
    (fromDigitsBE 256 (if b then [1] else [0]) != 0) = b := by
  cases b <;> rfl

theorem Ticket.parse_pack (t : Ticket) (hv : t.Valid) :
    Ticket.parse (t.pack true true) = Except.ok t := by
  obtain ⟨h1, h2, h3, h4, h5, h6, h7, h8, h9a, h9b, h10, h11, h12, h13, h14,
    h15, h16, h17, h18, h19, h20⟩ := hv
  have h8' : t.consoleid < 256 ^ 4 := by norm_num at h8 ⊢; omega
  have h9' : t.titleid.toNat < 256 ^ 8 := by
    have : t.titleid < (2:Int) ^ 64 := h9b
    norm_num; omega
  have h11' : t.titleversion < 256 ^ 2 := by norm_num at h11 ⊢; omega
  have h12' : t.permitted_titles_mask < 256 ^ 4 := by norm_num at h12 ⊢; omega
  have h13' : t.permit_mask < 256 ^ 4 := by norm_num at h13 ⊢; omega
  have h14' : t.ckeyindex < 256 ^ 1 := by norm_num at h14 ⊢; omega
  have h17' : t.padding < 256 ^ 2 := by norm_num at h17 ⊢; omega
  match hc : t.certificates, h19, h20 with
  | [c1, c2], _, h20 =>
  have hc1 : c1.length = CERTIFICATE_SIZE := by
    simp [List.all_cons] at h20; exact h20.1
  have hc2 : c2.length = CERTIFICATE_SIZE := by
    simp [List.all_cons] at h20; exact h20.2
  simp only [Ticket.pack, Ticket.parse, hc, if_true, List.foldl, List.nil_append,
    readExact_append _ _ h1,
    take_append_of_length _ _ h2, drop_append_of_length _ _ h2,
    take_append_of_length _ _ h3, drop_append_of_length _ _ h3,
    take_append_of_length _ _ h4, drop_append_of_length _ _ h4,
    take_append_of_length _ _ h5, drop_append_of_length _ _ h5,
    take_append_of_length _ _ h6, drop_append_of_length _ _ h6,
    take_append_of_length _ _ h7, drop_append_of_length _ _ h7,
    readExact_append _ _ (length_toDigitsBE 256 4 t.consoleid),
    readExact_append _ _ (length_toDigitsBE 256 8 t.titleid.toNat),
    take_append_of_length _ _ h10, drop_append_of_length _ _ h10,
    readExact_append _ _ (length_toDigitsBE 256 2 t.titleversion),
    readExact_append _ _ (length_toDigitsBE 256 4 t.permitted_titles_mask),
    readExact_append _ _ (length_toDigitsBE 256 4 t.permit_mask),
    readExact_append _ _ (boolByte_length t.export_allowed),
    readExact_append _ _ (length_toDigitsBE 256 1 t.ckeyindex),
    take_append_of_length _ _ h15, drop_append_of_length _ _ h15,
    take_append_of_length _ _ h16, drop_append_of_length _ _ h16,
    readExact_append _ _ (length_toDigitsBE 256 2 t.padding),
    take_append_of_length _ _ h18, drop_append_of_length _ _ h18,
    readExact_append _ _ hc1,
    readExact_self _ hc2]
  rw [← hc]
  simp only [fromDigitsBE_toDigitsBE_of_lt 256 _ _ h8',
    fromDigitsBE_toDigitsBE_of_lt 256 _ _ h9',
    fromDigitsBE_toDigitsBE_of_lt 256 _ _ h11',
    fromDigitsBE_toDigitsBE_of_lt 256 _ _ h12',
    fromDigitsBE_toDigitsBE_of_lt 256 _ _ h13',
    fromDigitsBE_toDigitsBE_of_lt 256 _ _ h14',
    fromDigitsBE_toDigitsBE_of_lt 256 _ _ h17',
    boolByte_decode, Int.toNat_of_nonneg h9a]

/-- C1: for every valid Ticket `t`, parsing the bytes produced by
`pack` with `include_signature = true` and `include_certificates = true`
yields a Ticket equal to `t` field-for-field, including the opaque
`limits` blob byte-for-byte. -/
theorem ticket_parse_pack_roundtrip (t : Ticket) (hv : t.Valid) :
    Ticket.parse (t.pack true true) = Except.ok t :=
  Ticket.parse_pack t hv

set_option maxRecDepth 100000 in
theorem ticket_parse_pack_roundtrip_witness :
    Ticket.init.Valid ∧
      Ticket.parse (Ticket.init.pack true true) = Except.ok Ticket.init :=
  ⟨by decide, ticket_parse_pack_roundtrip Ticket.init (by decide)⟩

/-! ### Truncated streams -/

theorem readExact_some_le {n : Nat} {l a r : List Nat}
    (h : readExact n l = some (a, r)) : n ≤ l.length ∧ r = l.drop n := by
  unfold readExact at h
  split at h
  · cases h; exact ⟨by assumption, rfl⟩
  · cases h

theorem Ticket.parse_ok_length {l : List Nat} {t : Ticket}
    (h : Ticket.parse l = Except.ok t) : MIN_TICKET_LEN ≤ l.length := by
  unfold Ticket.parse at h
  simp only [SIGNATURE_SIZE, CERTIFICATE_SIZE] at h
  rcases h0 : readExact 320 l with _ | ⟨sig, r0⟩ <;> rw [h0] at h
  · exact absurd h (by simp)
  obtain ⟨hl0, hr0⟩ := readExact_some_le h0
  subst hr0
  simp only [List.drop_drop] at h
  rcases h1 : readExact 4 (l.drop 472) with _ | ⟨a1, r1⟩ <;> rw [h1] at h
  · exact absurd h (by simp)
  obtain ⟨hl1, hr1⟩ := readExact_some_le h1
  subst hr1
  simp only [List.drop_drop] at h
  rcases h2 : readExact 8 (l.drop 476) with _ | ⟨a2, r2⟩ <;> rw [h2] at h
  · exact absurd h (by simp)
  obtain ⟨hl2, hr2⟩ := readExact_some_le h2
  subst hr2
  simp only [List.drop_drop] at h
  rcases h3 : readExact 2 (l.drop 486) with _ | ⟨a3, r3⟩ <;> rw [h3] at h
  · exact absurd h (by simp)
  obtain ⟨hl3, hr3⟩ := readExact_some_le h3
  subst hr3
  simp only [List.drop_drop] at h
  rcases h4 : readExact 4 (l.drop 488) with _ | ⟨a4, r4⟩ <;> rw [h4] at h
  · exact absurd h (by simp)
  obtain ⟨hl4, hr4⟩ := readExact_some_le h4
  subst hr4
  simp only [List.drop_drop] at h
  rcases h5 : readExact 4 (l.drop 492) with _ | ⟨a5, r5⟩ <;> rw [h5] at h
  · exact absurd h (by simp)
  obtain ⟨hl5, hr5⟩ := readExact_some_le h5
  subst hr5
  simp only [List.drop_drop] at h
  rcases h6 : readExact 1 (l.drop 496) with _ | ⟨a6, r6⟩ <;> rw [h6] at h
  · exact absurd h (by simp)
  obtain ⟨hl6, hr6⟩ := readExact_some_le h6
  subst hr6
  simp only [List.drop_drop] at h
  rcases h7 : readExact 1 (l.drop 497) with _ | ⟨a7, r7⟩ <;> rw [h7] at h
  · exact absurd h (by simp)
  obtain ⟨hl7, hr7⟩ := readExact_some_le h7
  subst hr7
  simp only [List.drop_drop] at h
  rcases h8 : readExact 2 (l.drop 610) with _ | ⟨a8, r8⟩ <;> rw [h8] at h
  · exact absurd h (by simp)
  obtain ⟨hl8, hr8⟩ := readExact_some_le h8
  subst hr8
  simp only [List.drop_drop] at h
  rcases h9 : readExact 768 (l.drop 676) with _ | ⟨a9, r9⟩ <;> rw [h9] at h
  · exact absurd h (by simp)
  obtain ⟨hl9, hr9⟩ := readExact_some_le h9
  subst hr9
  simp only [List.drop_drop] at h
  rcases h10 : readExact 768 (l.drop 1444) with _ | ⟨a10, r10⟩ <;> rw [h10] at h
  · exact absurd h (by simp)
  obtain ⟨hl10, hr10⟩ := readExact_some_le h10
  subst hr10
  simp only [List.drop_drop] at h
  simp only [List.length_drop] at hl10
  simp [MIN_TICKET_LEN, SIGNATURE_SIZE, CERTIFICATE_SIZE]
  omega

/-- Byte stream for the C7 counterexample: a complete signature block
followed by only 30 of the 64 issuer bytes. -/
def truncatedStream : List Nat := List.replicate 350 0

set_option maxRecDepth 100000 in
/-- C7 counterexample: parse of a truncated stream does not fail at the
first field boundary where the stream is too short.  On a stream that runs
out inside `issuer`, the first short field is `issuer`, but the raw-byte
read tolerates the short read silently and the parse only fails later, at
the `consoleid` field. -/
theorem parse_truncation_late_failure_cex :
    Ticket.parse truncatedStream = Except.error "consoleid" ∧
    firstShortField ticketLayout truncatedStream.length = some "issuer" ∧
    "consoleid" ≠ "issuer" :=
  ⟨by decide, by decide, by decide⟩

/-- C7 (amended): no truncated stream parses successfully — every stream
accepted by `parse` has at least the full fixed-layout length
`MIN_TICKET_LEN` — but the failure is not necessarily reported at the
first short field boundary, because raw-byte fields tolerate short reads
silently (see the counterexample). -/
theorem parse_truncated_never_succeeds (l : List Nat) (t : Ticket)
    (h : Ticket.parse l = Except.ok t) : MIN_TICKET_LEN ≤ l.length :=
  Ticket.parse_ok_length h

set_option maxRecDepth 100000 in
theorem parse_truncated_never_succeeds_witness :
    MIN_TICKET_LEN ≤ (Ticket.init.pack true true).length :=
  parse_truncated_never_succeeds _ Ticket.init
    (Ticket.parse_pack Ticket.init (by decide))

/-! ### Fakesign search properties -/

theorem findPadGo_some {h : List Nat → Nat} {t : Ticket} :
    ∀ fuel i p, findPadGo h t i fuel = some p →
      i ≤ p ∧ p < i + fuel ∧ fakesignCond h t p = true ∧
        ∀ j, i ≤ j → j < p → fakesignCond h t j = false := by
  intro fuel
  induction fuel with
  | zero => intro i p hp; cases hp
  | succ fuel ih =>
    intro i p hp
    unfold findPadGo at hp
    by_cases hc : fakesignCond h t i = true
    · rw [if_pos hc] at hp
      cases hp
      exact ⟨Nat.le_refl _, by omega, hc, fun j h1 h2 => absurd (Nat.lt_of_le_of_lt h1 h2) (by omega)⟩
    · rw [if_neg hc] at hp
      obtain ⟨ha, hb, hcnd, hmin⟩ := ih (i + 1) p hp
      refine ⟨by omega, by omega, hcnd, fun j h1 h2 => ?_⟩
      rcases Nat.eq_or_lt_of_le h1 with rfl | h1'
      · exact Bool.eq_false_iff.mpr hc
      · exact hmin j h1' h2

theorem findPadGo_none {h : List Nat → Nat} {t : Ticket} :
    ∀ fuel i, findPadGo h t i fuel = none →
      ∀ j, i ≤ j → j < i + fuel → fakesignCond h t j = false := by
  intro fuel
  induction fuel with
  | zero => intro i _ j h1 h2; omega
  | succ fuel ih =>
    intro i hp j h1 h2
    unfold findPadGo at hp
    by_cases hc : fakesignCond h t i = true
    · rw [if_pos hc] at hp; cases hp
    · rw [if_neg hc] at hp
      rcases Nat.eq_or_lt_of_le h1 with rfl | h1'
      · exact Bool.eq_false_iff.mpr hc
      · exact ih (i + 1) hp j h1' (by omega)

theorem findPadGo_none_of_all {h : List Nat → Nat} {t : Ticket}
    (hall : ∀ j, fakesignCond h t j = false) :
    ∀ fuel i, findPadGo h t i fuel = none := by
  intro fuel
  induction fuel with
  | zero => intro i; rfl
  | succ fuel ih => intro i; unfold findPadGo; rw [hall i]; exact ih (i + 1)

/-- C2 counterexample: the search does not always end in a padding value
satisfying the hash condition — with a (modelled) hash whose first digest
byte is never zero, `fakesign` exhausts all candidates `0..65534` and
signals failure instead. -/
theorem fakesign_exhaustion_cex :
    (Ticket.init.fakesign (fun _ => 1)).2 = false := by
  have hnone : findPad (fun _ => 1) Ticket.init.zerofillSig = none :=
    @findPadGo_none_of_all (fun _ => 1) Ticket.init.zerofillSig (fun j => rfl) 65535 0
  simp only [Ticket.fakesign, hnone]

/-- C2 (amended): `fakesign` tries candidates `0, 1, …, 65534` in
ascending order with the signature zeroed (`65535` is never tried) and
always terminates; whenever some candidate in that range satisfies the
hash condition (first digest byte `0x00` on the record packed without the
signature), it succeeds, its final padding value is in `[0, 65534]`,
satisfies the condition, and is the least satisfying candidate; the
procedure is a pure function of its input, so two runs on identical input
yield the identical result.  When no candidate satisfies the condition it
instead signals exhaustion (see the counterexample and C3). -/
theorem fakesign_success_least_padding (h : List Nat → Nat) (t : Ticket)
    (hex : ∃ i, i < 65535 ∧ fakesignCond h t.zerofillSig i = true) :
    (t.fakesign h).2 = true ∧
    (t.fakesign h).1 = { t.zerofillSig with padding := (t.fakesign h).1.padding } ∧
    (t.fakesign h).1.padding < 65535 ∧
    fakesignCond h t.zerofillSig (t.fakesign h).1.padding = true ∧
    (∀ j, j < (t.fakesign h).1.padding → fakesignCond h t.zerofillSig j = false) ∧
    (∀ t2 : Ticket, t2 = t → t2.fakesign h = t.fakesign h) := by
  obtain ⟨i0, hi0, hc0⟩ := hex
  rcases hf : findPad h t.zerofillSig with _ | p
  · exfalso
    have := findPadGo_none 65535 0 hf i0 (Nat.zero_le _) (by omega)
    rw [hc0] at this
    cases this
  · obtain ⟨_, hb, hcnd, hmin⟩ := findPadGo_some 65535 0 p hf
    have heq : t.fakesign h = ({ t.zerofillSig with padding := p }, true) := by
      simp only [Ticket.fakesign, hf]
    refine ⟨by rw [heq], by simp [heq], by rw [heq]; simp; omega, ?_, ?_,
      fun t2 ht2 => by rw [ht2]⟩
    · rw [heq]; exact hcnd
    · rw [heq]; exact fun j hj => hmin j (Nat.zero_le _) hj

theorem fakesign_success_least_padding_witness :
    (Ticket.init.fakesign (fun _ => 0)).2 = true ∧
    (Ticket.init.fakesign (fun _ => 0)).1.padding < 65535 :=
  have h := fakesign_success_least_padding (fun _ => 0) Ticket.init
    ⟨0, by omega, rfl⟩
  ⟨h.1, h.2.2.1⟩

/-- C3: when no candidate padding value in the searched range satisfies
the hash condition, `fakesign` restores the ticket's padding field to its
original value before raising the exhaustion exception (the `false`
outcome); the final state is the zero-signature ticket with its original
padding. -/
theorem fakesign_exhausted_restores_padding (h : List Nat → Nat) (t : Ticket)
    (hall : ∀ i, i < 65535 → fakesignCond h t.zerofillSig i = false) :
    t.fakesign h = (t.zerofillSig, false) ∧ t.zerofillSig.padding = t.padding := by
  have hnone : findPad h t.zerofillSig = none := by
    rcases hf : findPad h t.zerofillSig with _ | p
    · rfl
    · obtain ⟨_, hb, hcnd, _⟩ := findPadGo_some 65535 0 p hf
      rw [hall p (by omega)] at hcnd
      cases hcnd
  simp only [Ticket.fakesign, hnone]
  exact ⟨rfl, rfl⟩

theorem fakesign_exhausted_restores_padding_witness :
    Ticket.init.fakesign (fun _ => 1) = (Ticket.init.zerofillSig, false) ∧
    Ticket.init.zerofillSig.padding = Ticket.init.padding :=
  fakesign_exhausted_restores_padding (fun _ => 1) Ticket.init
    (fun _ _ => rfl)

/-- C10: `fakesign` zero-fills the signature as its first step and never
restores it — in both outcomes the resulting signature is the zero block —
every field other than signature and padding is unchanged in every
outcome, and on the failure outcome the padding is restored to its
original value. -/
theorem fakesign_frame (h : List Nat → Nat) (t : Ticket) :
    (t.fakesign h).1.signature = List.replicate SIGNATURE_SIZE 0 ∧
    (t.fakesign h).1.issuer = t.issuer ∧
    (t.fakesign h).1.ecdhdata = t.ecdhdata ∧
    (t.fakesign h).1.unused1 = t.unused1 ∧
    (t.fakesign h).1.titlekey = t.titlekey ∧
    (t.fakesign h).1.unknown1 = t.unknown1 ∧
    (t.fakesign h).1.ticketid = t.ticketid ∧
    (t.fakesign h).1.consoleid = t.consoleid ∧
    (t.fakesign h).1.titleid = t.titleid ∧
    (t.fakesign h).1.unknown2 = t.unknown2 ∧
    (t.fakesign h).1.titleversion = t.titleversion ∧
    (t.fakesign h).1.permitted_titles_mask = t.permitted_titles_mask ∧
    (t.fakesign h).1.permit_mask = t.permit_mask ∧
    (t.fakesign h).1.export_allowed = t.export_allowed ∧
    (t.fakesign h).1.ckeyindex = t.ckeyindex ∧
    (t.fakesign h).1.unknown3 = t.unknown3 ∧
    (t.fakesign h).1.content_access_permissions = t.content_access_permissions ∧
    (t.fakesign h).1.limits = t.limits ∧
    (t.fakesign h).1.certificates = t.certificates ∧
    ((t.fakesign h).2 = false → (t.fakesign h).1.padding = t.padding) := by
  simp only [Ticket.fakesign]
  cases findPad h t.zerofillSig <;> simp [Ticket.zerofillSig]

theorem fakesign_frame_witness :
    (Ticket.init.fakesign (fun _ => 0)).1.issuer = Ticket.init.issuer ∧
    ((Ticket.init.fakesign (fun _ => 0)).2 = false →
      (Ticket.init.fakesign (fun _ => 0)).1.padding = Ticket.init.padding) := by
  obtain ⟨a1, a2, a3, a4, a5, a6, a7, a8, a9, a10, a11, a12, a13, a14, a15,
    a16, a17, a18, a19, a20⟩ := fakesign_frame (fun _ => 0) Ticket.init
  exact ⟨a2, a20⟩

/-! ### Key resolution -/

/-- C4: for every Ticket whose 16-character lowercase hexadecimal title id
begins with the prefix text `"00030"`, `get_decryption_key` returns the
reserved special-case DSi key, regardless of the value of `ckeyindex`. -/
theorem dsi_titleid_resolves_dsi_key (t : Ticket)
    (hp : pre00030.isPrefixOf t.get_titleid = true) :
    t.get_decryption_key.1 = DSI_KEY := by
  simp [Ticket.get_decryption_key, hp]

theorem dsi_titleid_resolves_dsi_key_witness :
    pre00030.isPrefixOf
      ({ Ticket.init with titleid := 0x0003000000000000, ckeyindex := 7 } : Ticket).get_titleid = true ∧
    ({ Ticket.init with titleid := 0x0003000000000000, ckeyindex := 7 } : Ticket).get_decryption_key.1 = DSI_KEY :=
  ⟨by decide, dsi_titleid_resolves_dsi_key _ (by decide)⟩

/-- C5 counterexample: a Ticket whose `ckeyindex` is out of the key
table's bounds but whose title id begins with `"00030"` does not resolve
to the key-table entry at index 0 with a warning, and its key name does
not resolve to `"Unknown"`: the DSi special case takes precedence in both
resolutions. -/
theorem out_of_range_ckeyindex_dsi_cex :
    3 ≤ ({ Ticket.init with titleid := 0x0003000000000000, ckeyindex := 5 } : Ticket).ckeyindex ∧
    ({ Ticket.init with titleid := 0x0003000000000000, ckeyindex := 5 } : Ticket).get_decryption_key
      = (DSI_KEY, false) ∧
    ({ Ticket.init with titleid := 0x0003000000000000, ckeyindex := 5 } : Ticket).get_decryption_key
      ≠ (DECRYPTION_KEYS.getD 0 CommonKey.normal, true) ∧
    ({ Ticket.init with titleid := 0x0003000000000000, ckeyindex := 5 } : Ticket).get_common_key_type
      = "DSi" ∧
    ({ Ticket.init with titleid := 0x0003000000000000, ckeyindex := 5 } : Ticket).get_common_key_type
      ≠ "Unknown" := by
  refine ⟨by decide, by decide, by decide, by decide, by decide⟩

/-- C5 (amended): for every Ticket whose title id does not begin with
`"00030"` and whose `ckeyindex` is outside the key table's bounds (only
reachable by parsing untrusted bytes: `set_common_key_index` rejects every
integer outside `0..2`), `get_decryption_key` emits the non-fatal warning
and returns the key-table entry at index 0 instead of failing, while
`get_common_key_type` returns the literal string `"Unknown"`. -/
theorem out_of_range_ckeyindex_fallback (t : Ticket)
    (hp : pre00030.isPrefixOf t.get_titleid = false)
    (hk : 3 ≤ t.ckeyindex) (i : Int) (hi : i < 0 ∨ 2 < i) :
    t.get_decryption_key = (DECRYPTION_KEYS.getD 0 CommonKey.normal, true) ∧
    t.get_common_key_type = "Unknown" ∧
    t.set_common_key_index i = Except.error "Invalid Common-Key index!" := by
  have h1 : DECRYPTION_KEYS[t.ckeyindex]? = none := by
    rw [List.getElem?_eq_none_iff]
    simp [DECRYPTION_KEYS]
    omega
  have h2 : key_types[t.ckeyindex]? = none := by
    rw [List.getElem?_eq_none_iff]
    simp [key_types]
    omega
  refine ⟨?_, ?_, ?_⟩
  · simp [Ticket.get_decryption_key, hp, h1]
  · simp [Ticket.get_common_key_type, hp, h2]
  · unfold Ticket.set_common_key_index
    rw [if_neg (by omega)]

theorem out_of_range_ckeyindex_fallback_witness :
    ({ Ticket.init with ckeyindex := 5 } : Ticket).get_decryption_key
      = (DECRYPTION_KEYS.getD 0 CommonKey.normal, true) ∧
    ({ Ticket.init with ckeyindex := 5 } : Ticket).get_common_key_type = "Unknown" ∧
    ({ Ticket.init with ckeyindex := 5 } : Ticket).set_common_key_index 3
      = Except.error "Invalid Common-Key index!" :=
  out_of_range_ckeyindex_fallback _ (by decide) (by decide) 3 (by omega)

/-! ### Initialization vector -/

/-- C6: for every Ticket (with `titleid` in the unsigned 64-bit range that
the source can pack), the cipher IV is 16 bytes long, its first 8 bytes
are the big-endian encoding of `titleid` — decoding them recovers
`titleid` exactly — and its last 8 bytes are zero. -/
theorem iv_structure (t : Ticket) (h0 : 0 ≤ t.titleid)
    (h1 : t.titleid < 2 ^ 64) :
    t.get_iv.length = 16 ∧
    t.get_iv.take 8 = toDigitsBE 256 8 t.titleid.toNat ∧
    (fromDigitsBE 256 (t.get_iv.take 8) : Int) = t.titleid ∧
    t.get_iv.drop 8 = List.replicate 8 0 := by
  have hlen := length_toDigitsBE 256 8 t.titleid.toNat
  have htake : t.get_iv.take 8 = toDigitsBE 256 8 t.titleid.toNat := by
    unfold Ticket.get_iv
    exact take_append_of_length _ _ hlen
  have hn : t.titleid.toNat < 256 ^ 8 := by norm_num; omega
  refine ⟨?_, htake, ?_, ?_⟩
  · unfold Ticket.get_iv
    simp [hlen]
  · rw [htake, fromDigitsBE_toDigitsBE_of_lt 256 8 _ hn, Int.toNat_of_nonneg h0]
  · unfold Ticket.get_iv
    exact drop_append_of_length _ _ hlen

theorem iv_structure_witness :
    ({ Ticket.init with titleid := 0x0001000248414341 } : Ticket).get_iv.length = 16 ∧
    ({ Ticket.init with titleid := 0x0001000248414341 } : Ticket).get_iv.drop 8
      = List.replicate 8 0 :=
  have h := iv_structure { Ticket.init with titleid := 0x0001000248414341 }
    (by decide) (by decide)
  ⟨h.1, h.2.2.2⟩

/-! ### Titlekey cipher integration -/

/-- A concrete cipher instance (add one to every byte) used to witness the
cipher round-trip statement. -/
def plusOneEnc : CommonKey → List Nat → List Nat → List Nat :=
  fun _ _ x => x.map (fun b => (b + 1) % 256)

/-- The matching decryption instance for `plusOneEnc`. -/
def plusOneDec : CommonKey → List Nat → List Nat → List Nat :=
  fun _ _ x => x.map (fun b => (b + 255) % 256)

/-- C8: for every Ticket with an in-range `ckeyindex` and every
32-hexadecimal-character plaintext, `set_titlekey` with
`encrypted = false` first encrypts the decoded 16-byte plaintext with the
ticket's current resolved key and IV and stores the ciphertext; the
stored bytes differ from the plaintext (whenever the external cipher
moves this plaintext, which the claim presupposes of AES), and
`get_decrypted_titlekey` with the matching decryption primitive recovers
exactly the original plaintext. -/
theorem set_titlekey_encrypt_roundtrip
    (enc dec : CommonKey → List Nat → List Nat → List Nat)
    (t : Ticket) (s p : List Nat)
    (hk : t.ckeyindex < 3)
    (hlen : s.length = 32)
    (hdec : hexDecode s = some p)
    (hinv : dec t.get_decryption_key.1 t.get_iv
        (enc t.get_decryption_key.1 t.get_iv p) = p)
    (hmoved : enc t.get_decryption_key.1 t.get_iv p ≠ p) :
    Ticket.set_titlekey enc t s false =
      Except.ok { t with titlekey := enc t.get_decryption_key.1 t.get_iv p } ∧
    ({ t with titlekey := enc t.get_decryption_key.1 t.get_iv p } : Ticket).titlekey ≠ p ∧
    Ticket.get_decrypted_titlekey dec
      { t with titlekey := enc t.get_decryption_key.1 t.get_iv p } = p := by
  refine ⟨?_, hmoved, ?_⟩
  · unfold Ticket.set_titlekey
    rw [if_neg (by omega), hdec]
    rfl
  · exact hinv

theorem set_titlekey_encrypt_roundtrip_witness :
    Ticket.set_titlekey plusOneEnc Ticket.init
        (asciiOf "00000000000000000000000000000000") false =
      Except.ok { Ticket.init with
        titlekey := plusOneEnc Ticket.init.get_decryption_key.1
          Ticket.init.get_iv (List.replicate 16 0) } ∧
    ({ Ticket.init with
        titlekey := plusOneEnc Ticket.init.get_decryption_key.1
          Ticket.init.get_iv (List.replicate 16 0) } : Ticket).titlekey
      ≠ List.replicate 16 0 ∧
    Ticket.get_decrypted_titlekey plusOneDec
      { Ticket.init with
        titlekey := plusOneEnc Ticket.init.get_decryption_key.1
          Ticket.init.get_iv (List.replicate 16 0) } = List.replicate 16 0 :=
  set_titlekey_encrypt_roundtrip plusOneEnc plusOneDec Ticket.init
    (asciiOf "00000000000000000000000000000000") (List.replicate 16 0)
    (by decide) (by decide) (by decide) (by decide) (by decide)

/-! ### Title id text form -/

theorem hexVal_lt (c : Nat) (h : isHexDigitCode c = true) : hexVal c < 16 := by
  simp [isHexDigitCode] at h
  unfold hexVal
  split_ifs <;> omega

theorem hex_not_special (c : Nat) (h : isHexDigitCode c = true) :
    isWsCode c = false ∧ c ≠ 43 ∧ c ≠ 45 ∧ c ≠ 95 ∧ c ≠ 120 ∧ c ≠ 88 ∧ 48 ≤ c := by
  simp [isHexDigitCode] at h
  simp [isWsCode]
  omega

theorem lower_upper_hexVal (c : Nat) (h : isHexDigitCode c = true) :
    pyLowerCode (hexUpperDigit (hexVal c)) = pyLowerCode c := by
  simp [isHexDigitCode, hexVal, hexUpperDigit, pyLowerCode] at h ⊢
  split_ifs <;> omega

theorem dropWhile_eq_self_of_all {p : Nat → Bool} {l : List Nat}
    (h : ∀ c ∈ l, p c = false) : l.dropWhile p = l := by
  cases l with
  | nil => rfl
  | cons c rest =>
    rw [List.dropWhile_cons, h c (by simp)]
    simp

theorem stripWs_eq_self {s : List Nat} (h : ∀ c ∈ s, isWsCode c = false) :
    stripWs s = s := by
  unfold stripWs
  rw [dropWhile_eq_self_of_all h,
    dropWhile_eq_self_of_all (fun c hc => h c (List.mem_reverse.mp hc)),
    List.reverse_reverse]

theorem digitsAfter_of_all {l : List Nat}
    (h : ∀ c ∈ l, isHexDigitCode c = true) : digitsAfter l = true := by
  induction l with
  | nil => rfl
  | cons c rest ih =>
    have hc := h c (by simp)
    obtain ⟨_, _, _, h95, _, _, _⟩ := hex_not_special c hc
    unfold digitsAfter
    rw [if_neg h95, hc]
    simp
    exact ih (fun x hx => h x (by simp [hx]))

theorem digitsCore_of_all {c : Nat} {rest : List Nat}
    (h : ∀ x ∈ c :: rest, isHexDigitCode x = true) :
    digitsCore (c :: rest) = true := by
  unfold digitsCore
  rw [h c (by simp)]
  simp
  exact digitsAfter_of_all (fun x hx => h x (by simp [hx]))

theorem hexBodyVal_of_all {c : Nat} {rest : List Nat}
    (h : ∀ x ∈ c :: rest, isHexDigitCode x = true) :
    hexBodyVal (c :: rest) = some (hexFold (c :: rest)) := by
  unfold hexBodyVal
  rw [digitsCore_of_all h]
  simp only [if_true]
  congr 1
  congr 1
  apply List.filter_eq_self.mpr
  intro a ha
  obtain ⟨_, _, _, h95, _, _, _⟩ := hex_not_special a (h a ha)
  simp [h95]

theorem pyInt16_of_hex16 {s : List Nat} (hs : isHexString16 s = true) :
    pyInt16 s = some (hexFold s : Int) := by
  simp only [isHexString16, Bool.and_eq_true, beq_iff_eq, List.all_eq_true] at hs
  obtain ⟨hlen, hhex⟩ := hs
  have hhex' : ∀ c ∈ s, isHexDigitCode c = true := fun c hc => hhex c hc
  have hstrip : stripWs s = s :=
    stripWs_eq_self (fun c hc => (hex_not_special c (hhex' c hc)).1)
  match s, hlen with
  | c0 :: c1 :: rest, _ =>
  have hc0 := hhex' c0 (by simp)
  have hc1 := hhex' c1 (by simp)
  obtain ⟨_, h43, h45, _, _, _, _⟩ := hex_not_special c0 hc0
  obtain ⟨_, _, _, _, h120, h88, _⟩ := hex_not_special c1 hc1
  unfold pyInt16
  rw [hstrip]
  simp only [if_neg h43, if_neg h45, pyInt16Core]
  rw [if_neg (by simp [h120, h88]), hexBodyVal_of_all hhex']
  rfl

theorem toDigitsBE_zero (b : Nat) : ∀ w, toDigitsBE b w 0 = List.replicate w 0
  | 0 => rfl
  | w + 1 => by
    rw [toDigitsBE, Nat.zero_div, Nat.zero_mod, toDigitsBE_zero b w,
      ← List.replicate_succ']

theorem toDigitsBE_mem_lt (b : Nat) (hb : 0 < b) :
    ∀ w v d, d ∈ toDigitsBE b w v → d < b
  | w + 1, v, d, hd => by
    rw [toDigitsBE] at hd
    rcases List.mem_append.mp hd with h | h
    · exact toDigitsBE_mem_lt b hb w _ d h
    · simp at h
      subst h
      exact Nat.mod_lt v hb

theorem padZeros_append_singleton (w : Nat) (l : List Nat) (x : Nat) :
    padZeros (w + 1) (l ++ [x]) = padZeros w l ++ [x] := by
  unfold padZeros
  simp [List.length_append, Nat.succ_sub_succ]

theorem toHexUpperGo_ne_nil (fuel n : Nat) : toHexUpperGo (fuel + 1) n ≠ [] := by
  unfold toHexUpperGo
  split <;> simp

theorem toHexUpperGo_mem :
    ∀ fuel n c, c ∈ toHexUpperGo fuel n → ∃ d, d < 16 ∧ c = hexUpperDigit d := by
  intro fuel
  induction fuel with
  | zero => intro n c hc; cases hc
  | succ fuel ih =>
    intro n c hc
    unfold toHexUpperGo at hc
    split at hc
    · simp at hc
      exact ⟨n, by omega, hc⟩
    · rcases List.mem_append.mp hc with h | h
      · exact ih _ c h
      · simp at h
        exact ⟨n % 16, Nat.mod_lt n (by omega), h⟩

theorem padZeros_toHexUpperGo :
    ∀ k v fuel, v < 16 ^ (k + 1) → v < fuel →
      padZeros (k + 1) (toHexUpperGo fuel v) =
        (toDigitsBE 16 (k + 1) v).map hexUpperDigit := by
  intro k
  induction k with
  | zero =>
    intro v fuel hv hf
    match fuel, hf with
    | f + 1, _ =>
      have hv16 : v < 16 := by simpa using hv
      unfold toHexUpperGo
      rw [if_pos hv16, toDigitsBE, toDigitsBE]
      simp [padZeros, Nat.mod_eq_of_lt hv16]
  | succ k ih =>
    intro v fuel hv hf
    match fuel, hf with
    | f + 1, hf =>
      by_cases hv16 : v < 16
      · unfold toHexUpperGo
        rw [if_pos hv16, toDigitsBE, Nat.div_eq_of_lt hv16, toDigitsBE_zero,
          Nat.mod_eq_of_lt hv16]
        simp [padZeros, List.map_replicate]
        rfl
      · unfold toHexUpperGo
        rw [if_neg hv16]
        have h1 : v / 16 < 16 ^ (k + 1) := by
          rw [Nat.div_lt_iff_lt_mul (by norm_num)]
          calc v < 16 ^ (k + 1 + 1) := hv
          _ = 16 ^ (k + 1) * 16 := by ring
        have h2 : v / 16 < f := by
          have hd : v / 16 < v := Nat.div_lt_self (by omega) (by norm_num)
          omega
        rw [padZeros_append_singleton, ih (v / 16) f h1 h2]
        conv_rhs => rw [toDigitsBE]
        simp

theorem padZeros16_toHexUpper (v : Nat) (hv : v < 16 ^ 16) :
    padZeros 16 (toHexUpper v) = (toDigitsBE 16 16 v).map hexUpperDigit :=
  padZeros_toHexUpperGo 15 v (v + 1) hv (Nat.lt_succ_self v)

theorem pyZfill_eq_padZeros {c : Nat} {rest : List Nat} (w : Nat)
    (h43 : c ≠ 43) (h45 : c ≠ 45) :
    pyZfill w (c :: rest) = padZeros w (c :: rest) := by
  unfold pyZfill padZeros
  split_ifs with h
  · rw [Nat.sub_eq_zero_of_le h]
    simp
  · simp [h43, h45]

theorem padZeros_padZeros (w1 w2 : Nat) (l : List Nat) (h : w1 ≤ w2) :
    padZeros w2 (padZeros w1 l) = padZeros w2 l := by
  unfold padZeros
  rw [← List.append_assoc, ← List.replicate_add]
  congr 2
  simp [List.length_append, List.length_replicate]
  omega

/-- Written from the spec's words: a lowercase hexadecimal character. -/
def lowerHexCode (c : Nat) : Bool :=
  (48 ≤ c && c ≤ 57) || (97 ≤ c && c ≤ 102)

theorem padZeros_mem_48 {w : Nat} {X : List Nat} {c : Nat}
    (hc : c ∈ padZeros w X)
    (hmem : ∀ x ∈ X, ∃ d, d < 16 ∧ x = hexUpperDigit d) : 48 ≤ c := by
  unfold padZeros at hc
  rcases List.mem_append.mp hc with h | h
  · rw [List.eq_of_mem_replicate h]
  · obtain ⟨d, hd, rfl⟩ := hmem c h
    unfold hexUpperDigit
    split <;> omega

theorem get_titleid_nonneg_eq (v : Nat) (hv : v < 16 ^ 16) (t : Ticket)
    (ht : t.titleid = (v : Int)) :
    t.get_titleid =
      ((toDigitsBE 16 16 v).map hexUpperDigit).map pyLowerCode := by
  unfold Ticket.get_titleid pyFormat08X
  rw [ht]
  rw [if_neg (by omega)]
  have htn : ((v : Int)).toNat = v := Int.toNat_ofNat v
  rw [htn]
  have hne : toHexUpper v ≠ [] := toHexUpperGo_ne_nil v v
  have hmem : ∀ x ∈ toHexUpper v, ∃ d, d < 16 ∧ x = hexUpperDigit d :=
    fun x hx => toHexUpperGo_mem (v + 1) v x hx
  rcases hP : padZeros 8 (toHexUpper v) with _ | ⟨c, rest⟩
  · exfalso
    have : (padZeros 8 (toHexUpper v)).length = 0 := by rw [hP]; rfl
    unfold padZeros at this
    simp [List.length_append] at this
    exact hne this.2
  · have hc48 : 48 ≤ c := padZeros_mem_48 (hP ▸ List.mem_cons_self c rest) hmem
    rw [@pyZfill_eq_padZeros c rest 16 (by omega) (by omega)]
    rw [← hP]
    rw [padZeros_padZeros 8 16 _ (by omega)]
    rw [padZeros16_toHexUpper v hv]

theorem get_titleid_of_hexFold (t : Ticket) {s : List Nat}
    (hs : isHexString16 s = true) :
    Ticket.get_titleid { t with titleid := (hexFold s : Int) } =
      s.map pyLowerCode := by
  simp only [isHexString16, Bool.and_eq_true, beq_iff_eq, List.all_eq_true] at hs
  obtain ⟨hlen, hhex⟩ := hs
  have hhex' : ∀ c ∈ s, isHexDigitCode c = true := fun c hc => hhex c hc
  have hvlt : ∀ d ∈ s.map hexVal, d < 16 := by
    intro d hd
    obtain ⟨c, hc, rfl⟩ := List.mem_map.mp hd
    exact hexVal_lt c (hhex' c hc)
  have hlt : hexFold s < 16 ^ 16 := by
    have hb := fromDigitsBE_lt 16 (s.map hexVal) hvlt
    rw [List.length_map, hlen] at hb
    exact hb
  rw [get_titleid_nonneg_eq (hexFold s) hlt _ rfl]
  have hdig : toDigitsBE 16 16 (hexFold s) = s.map hexVal := by
    have hb := toDigitsBE_fromDigitsBE 16 (s.map hexVal) hvlt
    rw [List.length_map, hlen] at hb
    exact hb
  rw [hdig, List.map_map, List.map_map]
  apply List.map_congr_left
  intro c hc
  exact lower_upper_hexVal c (hhex' c hc)

theorem digit_lower_hex (d : Nat) (hd : d < 16) :
    lowerHexCode (pyLowerCode (hexUpperDigit d)) = true := by
  simp [lowerHexCode, pyLowerCode, hexUpperDigit]
  split_ifs <;> omega

theorem get_titleid_shape (t : Ticket) (h0 : 0 ≤ t.titleid)
    (h1 : t.titleid < 2 ^ 64) :
    t.get_titleid.length = 16 ∧ t.get_titleid.all lowerHexCode = true := by
  obtain ⟨v, hv⟩ : ∃ v : Nat, t.titleid = (v : Int) :=
    ⟨t.titleid.toNat, (Int.toNat_of_nonneg h0).symm⟩
  have hvlt : v < 16 ^ 16 := by
    have : ((v : Int)) < 2 ^ 64 := hv ▸ h1
    norm_num at this ⊢
    omega
  rw [get_titleid_nonneg_eq v hvlt t hv]
  constructor
  · simp [List.length_map, length_toDigitsBE]
  · rw [List.map_map, List.all_eq_true]
    intro c hc
    obtain ⟨d, hd, rfl⟩ := List.mem_map.mp hc
    exact digit_lower_hex d (toDigitsBE_mem_lt 16 (by norm_num) 16 v d hd)

set_option maxRecDepth 100000 in
/-- C9 counterexample: the title-id setter does not accept exactly the
16-character hexadecimal strings: the 16-character non-hexadecimal string
`"+000000000000001"` is accepted (Python base-16 conversion tolerates a
sign), and after accepting `"-000000000000001"` the stored title id is
negative and the getter output contains a sign character, so the getter
does not always yield 16 lowercase hexadecimal characters. -/
theorem set_titleid_nonhex_accepted_cex :
    Ticket.set_titleid Ticket.init (asciiOf "+000000000000001")
      = Except.ok { Ticket.init with titleid := 1 } ∧
    isHexString16 (asciiOf "+000000000000001") = false ∧
    Ticket.set_titleid Ticket.init (asciiOf "-000000000000001")
      = Except.ok { Ticket.init with titleid := -1 } ∧
    ({ Ticket.init with titleid := -1 } : Ticket).get_titleid
      = asciiOf "-000000000000001" ∧
    ({ Ticket.init with titleid := -1 } : Ticket).get_titleid.all
      isHexDigitCode = false :=
  ⟨by decide, by decide, by decide, by decide, by decide⟩

/-- C9 (amended): `set_titleid` accepts exactly the 16-character strings
accepted by Python's base-16 integer conversion: in particular every
16-character hexadecimal string (case-insensitive) is accepted, its value
is stored, and the getter then returns the same 16 characters normalized
to lowercase; every string of another length and every 16-character
string that base-16 conversion rejects fails with the respective error;
and the getter yields exactly 16 lowercase hexadecimal characters
whenever the stored title id is nonnegative and below `2 ^ 64` (a
sign-decorated input can store a negative value, whose rendering carries
a sign character — see the counterexample). -/
theorem set_titleid_hex_roundtrip (t : Ticket) (s : List Nat)
    (hs : isHexString16 s = true) :
    Ticket.set_titleid t s = Except.ok { t with titleid := (hexFold s : Int) } ∧
    ({ t with titleid := (hexFold s : Int) } : Ticket).get_titleid
      = s.map pyLowerCode ∧
    (∀ r : List Nat, r.length ≠ 16 →
      Ticket.set_titleid t r
        = Except.error "Title ID must be 16 characters long.") ∧
    (∀ r : List Nat, r.length = 16 → pyInt16 r = none →
      Ticket.set_titleid t r
        = Except.error "invalid literal for int with base 16") ∧
    (∀ t2 : Ticket, 0 ≤ t2.titleid → t2.titleid < 2 ^ 64 →
      t2.get_titleid.length = 16 ∧ t2.get_titleid.all lowerHexCode = true) := by
  have hlen : s.length = 16 := by
    simp [isHexString16] at hs
    exact hs.1
  refine ⟨?_, get_titleid_of_hexFold t hs, ?_, ?_,
    fun t2 a b => get_titleid_shape t2 a b⟩
  · unfold Ticket.set_titleid
    rw [if_neg (by omega), pyInt16_of_hex16 hs]
  · intro r hr
    unfold Ticket.set_titleid
    rw [if_pos hr]
  · intro r hr hnone
    unfold Ticket.set_titleid
    rw [if_neg (by omega), hnone]

set_option maxRecDepth 100000 in
theorem set_titleid_hex_roundtrip_witness :
    Ticket.set_titleid Ticket.init (asciiOf "0123456789ABCDEF")
      = Except.ok { Ticket.init with
          titleid := (hexFold (asciiOf "0123456789ABCDEF") : Int) } ∧
    ({ Ticket.init with
        titleid := (hexFold (asciiOf "0123456789ABCDEF") : Int) } : Ticket).get_titleid
      = (asciiOf "0123456789ABCDEF").map pyLowerCode :=
  have h := set_titleid_hex_roundtrip Ticket.init
    (asciiOf "0123456789ABCDEF") (by decide)
  ⟨h.1, h.2.1⟩
